import Mathlib

/-!
Verification of the PaperFeed fetch-score-dedup-cache pipeline
(`src/api/index.py`), shallowly embedded in Lean.

Modelling conventions:
* Python `str` is Lean `String`; all string processing is re-implemented
  structurally over `String.data` (`List Char`) so that every definition
  evaluates by kernel reduction.  ASCII semantics are assumed for
  `lower()` / `isalnum()` / `isdigit()`, which covers every string the
  claims mention.
* Python `float` is modelled as `ℚ`; `round(x, 1)` is modelled by `round1`
  (round to the nearest tenth, built on Mathlib's `round`).
* `datetime.date` is `PyDate` (year/month/day as integers, compared
  lexicographically, exactly as Python compares dates).  `date.today()` and
  the `timedelta` cut-offs are ambient inputs of the original code and are
  passed as explicit parameters.
* Network I/O is modelled by passing each adapter the outcome of its HTTP
  request(s) as an `Except String payload` value: `.error` stands for a
  network error / non-2xx status / malformed top-level payload (anything the
  outer `try` of the adapter catches), `.ok` carries the decoded payload.
  A record inside a payload carries the fields the Python parser extracts.
* The process-global cache `_CACHE` is explicit state (`CacheState`), and
  `time.time()` is an explicit `now : ℚ` parameter.  The modelled
  `fetch_all_papers_for_days` additionally returns a `Bool` that is `true`
  exactly when the adapter fetch phase ran (cache miss), `false` on a hit.
-/

namespace PaperFeed

/-! ### String helpers (structural re-implementations of the Python string
operations used by `src/api/index.py`) -/

/-- Does `pat` occur at the start of `l`? (helper for the substring test). -/
def listStartsWith : List Char → List Char → Bool
  | [], _ => true
  | _ :: _, [] => false
  | c :: cs, d :: ds => c == d && listStartsWith cs ds

/-- Does `pat` occur contiguously anywhere in `l`? -/
def listHasSub : List Char → List Char → Bool
  | pat, [] => listStartsWith pat []
  | pat, c :: cs => listStartsWith pat (c :: cs) || listHasSub pat cs

/-- Python's `needle in hay` substring test on strings. -/
def strIn (needle hay : String) : Bool := listHasSub needle.data hay.data

/-- Python's `s.lower()` (ASCII). -/
def strLower (s : String) : String := ⟨s.data.map Char.toLower⟩

/-- Python's `s.strip()`. -/
def strStrip (s : String) : String :=
  ⟨((s.data.dropWhile Char.isWhitespace).reverse.dropWhile Char.isWhitespace).reverse⟩

/-- Python's `sep.join(l)` for a string separator. -/
def joinSep (sep : String) : List String → String
  | [] => ""
  | [s] => s
  | s :: rest => s ++ sep ++ joinSep sep rest

/-- Python's `s.split(sep)` for a one-character separator. -/
def splitOnChar (sep : Char) : List Char → List (List Char)
  | [] => [[]]
  | c :: cs =>
    if c = sep then [] :: splitOnChar sep cs
    else
      match splitOnChar sep cs with
      | [] => [[c]]
      | g :: gs => (c :: g) :: gs

/-- Python's `s.replace(old, new)` for a one-character `old`. -/
def replaceChar (old : Char) (new : List Char) : List Char → List Char
  | [] => []
  | c :: cs => (if c = old then new else [c]) ++ replaceChar old new cs

/-- The author display convention shared by the adapters: first 5 names
joined by `", "`, suffixed `" et al."` when more than 5 authors exist. -/
def etAlJoin (authors : List String) : String :=
  joinSep ", " (authors.take 5) ++ (if 5 < authors.length then " et al." else "")

/-! ### Dates -/

/-- A Python `datetime.date` value (already validated on construction). -/
structure PyDate where
  year : Int
  month : Int
  day : Int
deriving DecidableEq

/-- Python date comparison `a <= b`: lexicographic on (year, month, day). -/
def PyDate.le (a b : PyDate) : Prop :=
  a.year < b.year ∨ (a.year = b.year ∧
    (a.month < b.month ∨ (a.month = b.month ∧ a.day ≤ b.day)))

/-- Python date comparison `a < b`: lexicographic on (year, month, day). -/
def PyDate.lt (a b : PyDate) : Prop :=
  a.year < b.year ∨ (a.year = b.year ∧
    (a.month < b.month ∨ (a.month = b.month ∧ a.day < b.day)))

instance (a b : PyDate) : Decidable (PyDate.le a b) := by
  unfold PyDate.le; infer_instance

instance (a b : PyDate) : Decidable (PyDate.lt a b) := by
  unfold PyDate.lt; infer_instance

/-- Days in a month, as `datetime.date` validates them (Gregorian, with
leap years). -/
def daysInMonth (y m : Int) : Int :=
  if m = 2 then (if (y % 4 = 0 ∧ y % 100 ≠ 0) ∨ y % 400 = 0 then 29 else 28)
  else if m = 4 ∨ m = 6 ∨ m = 9 ∨ m = 11 then 30 else 31

/-- The `datetime.date(y, m, d)` constructor: `.ok` on a valid calendar
date, `.error` for the `ValueError` it raises otherwise. -/
def makeDate (y m d : Int) : Except String PyDate :=
  if 1 ≤ y ∧ y ≤ 9999 ∧ 1 ≤ m ∧ m ≤ 12 ∧ 1 ≤ d ∧ d ≤ daysInMonth y m then
    .ok ⟨y, m, d⟩
  else .error "ValueError"

/-- Parse a non-empty all-digit character list as a natural number. -/
def digitsToNat? (s : List Char) : Option Nat :=
  if s ≠ [] ∧ s.all Char.isDigit then
    some (s.foldl (fun n c => 10 * n + (c.toNat - 48)) 0)
  else none

/-- Python's `int(s)` on a string: optional surrounding whitespace, optional
sign, decimal digits; `none` models the `ValueError`. -/
def pyInt? (s : String) : Option Int :=
  match (strStrip s).data with
  | [] => none
  | '-' :: rest => (digitsToNat? rest).map (fun n => -(n : Int))
  | '+' :: rest => (digitsToNat? rest).map (fun n => (n : Int))
  | l => (digitsToNat? l).map (fun n => (n : Int))

/-- `date.fromisoformat` on a `YYYY-MM-DD` string; `.error` models the
`ValueError` on any malformed or invalid input. -/
def parseIsoDate (s : String) : Except String PyDate :=
  match splitOnChar '-' s.data with
  | [ys, ms, ds] =>
    if ys.length = 4 ∧ ms.length = 2 ∧ ds.length = 2 then
      match digitsToNat? ys, digitsToNat? ms, digitsToNat? ds with
      | some y, some m, some d => makeDate y m d
      | _, _, _ => .error "ValueError"
    else .error "ValueError"
  | _ => .error "ValueError"

/-! ### The paper model and configuration (`Paper`, `ResearchArea`,
`Config` dataclasses of `src/api/index.py`) -/

/-- The `Paper` dataclass. -/
structure Paper where
  title : String
  authors : String
  abstract : String
  url : String
  published_date : PyDate
  source : String
  journal : String := ""
  matched_areas : List String := []
  score : ℚ := 0
deriving DecidableEq

/-- The `ResearchArea` dataclass. -/
structure ResearchArea where
  name : String
  terms : List String
  weight : ℚ := 1
deriving DecidableEq

/-- The `Config` dataclass.  `areas` is a Python `dict[str, ResearchArea]`,
modelled as an insertion-ordered association list; the dict invariant
(unique keys) appears as an explicit `Nodup` hypothesis where needed. -/
structure Config where
  areas : List (String × ResearchArea)
  lookback_days : Int
  max_results : Nat
  title_multiplier : ℚ
  pubmed_enabled : Bool
  biorxiv_enabled : Bool
  arxiv_enabled : Bool
  arxiv_categories : List String
  high_impact_journals : List String
  high_impact_lookback_days : Int
  other_lookback_options : List Int
deriving DecidableEq

/-! ### Scoring (`score_paper`) -/

/-- Python's `round(x, 1)`: round to the nearest tenth (ties modelled by
Mathlib's `round`). -/
def round1 (x : ℚ) : ℚ := ((round (10 * x) : ℤ) : ℚ) / 10

/-- The inner loop of `score_paper`: the accumulated `area_score` of one
area's term list against the (already lower-cased) title and abstract. -/
def areaScore (title abstract : String) (tm : ℚ) (terms : List String) : ℚ :=
  terms.foldl
    (fun acc term =>
      acc + ((if strIn (strLower term) title then tm else 0) +
             (if strIn (strLower term) abstract then 1 else 0)))
    0

/-- `score_paper(paper, config)`: keyword scoring of one paper.  The Python
function mutates `paper.matched_areas` / `paper.score` in place and returns
the same object; here it returns the updated record. -/
def score_paper (paper : Paper) (config : Config) : Paper :=
  let title := strLower paper.title
  let abstract := strLower paper.abstract
  let acc := config.areas.foldl
    (fun (acc : List String × ℚ) na =>
      let s := areaScore title abstract config.title_multiplier na.2.terms
      if 0 < s then (acc.1 ++ [na.1], acc.2 + s * na.2.weight) else acc)
    ([], 0)
  { paper with matched_areas := acc.1, score := round1 acc.2 }

/-- Specification-level description of one area's contribution: a list of
per-term contributions, summed. -/
def areaScoreSum (title abstract : String) (tm : ℚ) (terms : List String) : ℚ :=
  (terms.map (fun term =>
    (if strIn (strLower term) title then tm else 0) +
    (if strIn (strLower term) abstract then 1 else 0))).sum

/-- Specification-level matched areas: the names of the areas whose local
score is positive, in configuration iteration order. -/
def matchedAreasSpec (paper : Paper) (config : Config) : List String :=
  (config.areas.filter (fun na =>
    decide (0 < areaScore (strLower paper.title) (strLower paper.abstract)
      config.title_multiplier na.2.terms))).map (·.1)

/-- Specification-level total (pre-rounding) score: the sum over all areas
of local score × weight, counting only areas with positive local score. -/
def totalScoreSpec (paper : Paper) (config : Config) : ℚ :=
  (config.areas.map (fun na =>
    let s := areaScore (strLower paper.title) (strLower paper.abstract)
      config.title_multiplier na.2.terms
    if 0 < s then s * na.2.weight else 0)).sum

/-! ### High-impact classification (`_normalize_journal`, `is_high_impact`) -/

/-- `_normalize_journal`: lower-case, then keep only alphanumerics. -/
def _normalize_journal (name : String) : String :=
  ⟨(strLower name).data.filter Char.isAlphanum⟩

/-- The fixed `alias_map` inside `is_high_impact`, as a lookup function
(Python `alias_map.get`). -/
def aliasMap (s : String) : Option String :=
  if s = "pnas" then some "procnatlacadsciusa" else none

/-- `is_high_impact(paper, config)`. -/
def is_high_impact (paper : Paper) (config : Config) : Bool :=
  if paper.journal = "" then false
  else
    let paper_norm := _normalize_journal paper.journal
    if paper_norm = "" then false
    else
      config.high_impact_journals.any (fun journal =>
        let journal_norm := _normalize_journal journal
        if journal_norm = "" then false
        else
          (paper_norm == journal_norm) ||
          (strIn journal_norm paper_norm || strIn paper_norm journal_norm) ||
          (aliasMap journal_norm == some paper_norm) ||
          (aliasMap paper_norm == some journal_norm))

/-! ### Merge / deduplication (the loop over `asyncio.gather` results in
`fetch_all_papers_for_days`, lines 471-478) -/

/-- `isinstance(result, list)` filtering of one gathered result: an
exception contributes nothing, a list contributes its papers. -/
def okPapers : Except String (List Paper) → List Paper
  | .ok l => l
  | .error _ => []

/-- The deduplication loop body: keep a paper iff its url is non-empty and
not yet in `seen_urls` (`if paper.url and paper.url not in seen_urls`). -/
def dedupPapers (seen : List String) : List Paper → List Paper
  | [] => []
  | p :: ps =>
    if p.url ≠ "" ∧ p.url ∉ seen then p :: dedupPapers (p.url :: seen) ps
    else dedupPapers seen ps

/-- The merge step over all gathered adapter results.  The Python double
loop (over results, then over each result's papers) with one persistent
`seen_urls` set is the single loop over the flattened stream. -/
def mergeResults (results : List (Except String (List Paper))) : List Paper :=
  dedupPapers [] (results.map okPapers).flatten

/-- The gathered results in task-launch order (`tasks.append` order in
`fetch_all_papers_for_days`, launched under each source's enable flag;
`asyncio.gather` returns results in the order tasks were passed). -/
def joinedResults (config : Config)
    (pubmed_r high_impact_r biorxiv_r arxiv_r : Except String (List Paper)) :
    List (Except String (List Paper)) :=
  (if config.pubmed_enabled then [pubmed_r] else []) ++
  (if config.pubmed_enabled ∧ config.high_impact_journals ≠ [] then [high_impact_r] else []) ++
  (if config.biorxiv_enabled then [biorxiv_r] else []) ++
  (if config.arxiv_enabled then [arxiv_r] else [])

/-! ### Sorting and the scored pipeline -/

/-- The sort key order of `relevant.sort(key=lambda p: (-p.score,
p.published_date))`: ascending lexicographic on (negated score,
published date). -/
def paperKeyLe (a b : Paper) : Prop :=
  -a.score < -b.score ∨ (-a.score = -b.score ∧ PyDate.le a.published_date b.published_date)

instance (a b : Paper) : Decidable (paperKeyLe a b) := by
  unfold paperKeyLe; infer_instance

/-- The score → filter → sort phase of `fetch_all_papers_for_days`
(lines 480-485), applied to gathered adapter results. -/
def relevantPapers (config : Config)
    (results : List (Except String (List Paper))) : List Paper :=
  let all_papers := mergeResults results
  let scored := all_papers.map (fun p => score_paper p config)
  let relevant := scored.filter (fun p => decide (0 < p.score))
  List.insertionSort paperKeyLe relevant

/-! ### Cache (`_CACHE`, `CACHE_TTL_SECONDS`, and the caching logic of
`fetch_all_papers_for_days`) -/

/-- The structural cache key tuple built at lines 437-448. -/
structure CacheKey where
  lookback_days : Int
  high_impact_days : Int
  max_results : Nat
  pubmed_enabled : Bool
  biorxiv_enabled : Bool
  arxiv_enabled : Bool
  arxiv_categories : List String
  areas : List (String × ℚ × List String)
  title_multiplier : ℚ
  high_impact_journals : List String
deriving DecidableEq

/-- Ordering used by Python's `sorted(config.areas.items())`: dict items
sorted by key (keys are unique, so the value is never compared). -/
def areaItemLe (a b : String × ResearchArea) : Prop := a.1 ≤ b.1

instance (a b : String × ResearchArea) : Decidable (areaItemLe a b) := by
  unfold areaItemLe; infer_instance

/-- `sorted(config.areas.items())`. -/
def sortedAreas (config : Config) : List (String × ResearchArea) :=
  List.insertionSort areaItemLe config.areas

/-- The cache key of a call to `fetch_all_papers_for_days`. -/
def cacheKey (config : Config) (lookback_days high_impact_days : Int) : CacheKey where
  lookback_days := lookback_days
  high_impact_days := high_impact_days
  max_results := config.max_results
  pubmed_enabled := config.pubmed_enabled
  biorxiv_enabled := config.biorxiv_enabled
  arxiv_enabled := config.arxiv_enabled
  arxiv_categories := config.arxiv_categories
  areas := (sortedAreas config).map (fun kv => (kv.1, kv.2.weight, kv.2.terms))
  title_multiplier := config.title_multiplier
  high_impact_journals := config.high_impact_journals

/-- The module-level `_CACHE` dict (single slot). -/
structure CacheState where
  timestamp : ℚ
  key : Option CacheKey
  papers : Option (List Paper)

/-- `_CACHE = {"timestamp": 0.0, "key": None, "papers": None}`. -/
def initialCache : CacheState := ⟨0, none, none⟩

/-- `fetch_all_papers_for_days(config, lookback_days, high_impact_days)`.
`now` is `time.time()`, `cache` the current `_CACHE` contents, and
`results` the adapter outputs `asyncio.gather` would deliver on this call
(ignored on a cache hit, which returns without fetching).  Returns the
paper list, the updated cache state, and whether the fetch phase ran
(`true` on a miss).  A hit requires key equality and age < 300 s
(`CACHE_TTL_SECONDS`); a hit returns `list(_CACHE["papers"] or [])`. -/
def fetch_all_papers_for_days (config : Config) (lookback_days high_impact_days : Int)
    (now : ℚ) (cache : CacheState) (results : List (Except String (List Paper))) :
    List Paper × CacheState × Bool :=
  if cache.key = some (cacheKey config lookback_days high_impact_days) ∧
      now - cache.timestamp < 300 then
    (cache.papers.getD [], cache, false)
  else
    (relevantPapers config results,
     ⟨now, some (cacheKey config lookback_days high_impact_days),
      some (relevantPapers config results)⟩,
     true)

/-! ### bioRxiv adapter (`fetch_biorxiv`) -/

/-- One entry of the bioRxiv `collection` array, carrying the fields the
code reads with `item.get(..., default)` (a missing field is its default,
`""`; a missing `date` is the `str(date.today())` default the code
supplies). -/
structure BiorxivItem where
  doi : String := ""
  title : String := ""
  authors : String := ""
  abstract : String := ""
  date : String
deriving DecidableEq

/-- The per-item `try` body of `fetch_biorxiv`: `.error` models the
exception path (here, `date.fromisoformat` raising), `.ok` the constructed
paper. -/
def parse_biorxiv_item (item : BiorxivItem) : Except String Paper := do
  let pd ← parseIsoDate item.date
  .ok { title := strStrip item.title
        authors := item.authors
        abstract := item.abstract
        url := if item.doi ≠ "" then "https://www.biorxiv.org/content/" ++ item.doi else ""
        published_date := pd
        source := "biorxiv"
        journal := "bioRxiv" }

/-- The per-record loop of `fetch_biorxiv`: a record whose `try` body raises
is skipped (`except Exception: continue`), the rest are kept in order. -/
def biorxivLoop (items : List BiorxivItem) : List Paper :=
  items.filterMap (fun it => (parse_biorxiv_item it).toOption)

/-- `fetch_biorxiv(days, max_results, client)`.  `resp` is the outcome of
the single HTTP request plus top-level JSON decoding: on `.error`
(network error / non-2xx / malformed payload) the outer `try` yields `[]`;
on `.ok` the collection is truncated to `max_results` and parsed
per-record.  `days` only shapes the request URL. -/
def fetch_biorxiv (days : Int) (max_results : Nat)
    (resp : Except String (List BiorxivItem)) : List Paper :=
  match days, resp with
  | _, .error _ => []
  | _, .ok collection => biorxivLoop (collection.take max_results)

/-! ### arXiv adapter (`fetch_arxiv`) -/

/-- One feedparser entry of the arXiv Atom feed, carrying the fields the
code reads (`entry.get(..., default)`); `authors` is the list of the
entries' `name` fields. -/
structure ArxivEntry where
  published : String := ""
  title : String := ""
  summary : String := ""
  link : String := ""
  authors : List String := []
deriving DecidableEq

/-- Shape check for `HH:MM:SS` (helper for the timestamp parser). -/
def hmsOk (l : List Char) : Bool :=
  match splitOnChar ':' l with
  | [h, m, s] =>
    (match digitsToNat? h, digitsToNat? m, digitsToNat? s with
     | some hv, some mv, some sv =>
       h.length = 2 && m.length = 2 && s.length = 2 &&
       decide (hv ≤ 23 ∧ mv ≤ 59 ∧ sv ≤ 59)
     | _, _, _ => false)
  | _ => false

/-- Shape check for a `+HH:MM` UTC-offset tail. -/
def offsetOk (l : List Char) : Bool :=
  match splitOnChar ':' l with
  | [h, m] =>
    (match digitsToNat? h, digitsToNat? m with
     | some hv, some mv => h.length = 2 && m.length = 2 && decide (hv ≤ 23 ∧ mv ≤ 59)
     | _, _ => false)
  | _ => false

/-- Time-of-day part of an ISO timestamp, after the code's
`replace("Z", "+00:00")`: `HH:MM:SS` with an optional `+HH:MM` offset. -/
def timeOk (l : List Char) : Bool :=
  match splitOnChar '+' l with
  | [hms] => hmsOk hms
  | [hms, off] => hmsOk hms && offsetOk off
  | _ => false

/-- `datetime.fromisoformat(published.replace("Z", "+00:00")).date()`:
parse the date part of a `YYYY-MM-DD[THH:MM:SS[+HH:MM]]` timestamp;
`.error` models the `ValueError` on malformed input.  (Negative UTC
offsets, which arXiv never emits, are not modelled.) -/
def parseArxivTimestamp (published : String) : Except String PyDate :=
  match splitOnChar 'T' (replaceChar 'Z' "+00:00".data published.data) with
  | [d] => parseIsoDate ⟨d⟩
  | [d, t] => if timeOk t then parseIsoDate ⟨d⟩ else .error "ValueError"
  | _ => .error "ValueError"

/-- The per-entry `try` body of `fetch_arxiv`: `.error` models the
exception path (timestamp parse failure), `.ok none` the `continue` for an
entry older than the cutoff, `.ok (some _)` a kept paper.  `cutoff` is the
`date.today() - timedelta(days=days)` value computed by the caller. -/
def parse_arxiv_entry (cutoff : PyDate) (entry : ArxivEntry) :
    Except String (Option Paper) := do
  let pd ← parseArxivTimestamp entry.published
  if PyDate.lt pd cutoff then .ok none
  else
    .ok (some
      { title := strStrip ⟨replaceChar '\n' " ".data entry.title.data⟩
        authors := etAlJoin entry.authors
        abstract := strStrip ⟨replaceChar '\n' " ".data entry.summary.data⟩
        url := entry.link
        published_date := pd
        source := "arxiv"
        journal := "arXiv" })

/-- The per-entry loop of `fetch_arxiv`: entries whose `try` body raises and
entries older than the cutoff are skipped, the rest kept in order. -/
def arxivLoop (cutoff : PyDate) (entries : List ArxivEntry) : List Paper :=
  entries.filterMap (fun e =>
    match parse_arxiv_entry cutoff e with
    | .ok (some p) => some p
    | _ => none)

/-- `fetch_arxiv(days, max_results, categories, client)`.  `resp` is the
outcome of the single HTTP request plus feed parsing; `max_results` and
`categories` only shape the request (the cap is applied server-side, so
no client-side truncation happens).  On `.error` the outer `try` yields
`[]`. -/
def fetch_arxiv (cutoff : PyDate) (resp : Except String (List ArxivEntry)) : List Paper :=
  match resp with
  | .error _ => []
  | .ok entries => arxivLoop cutoff entries

/-! ### PubMed adapter (`_fetch_pubmed_with_query` and its parsers) -/

/-- Year/Month/Day text fields of a PubMed date element
(`findtext` results: `none` for a missing child). -/
structure DateParts where
  year : Option String := none
  month : Option String := none
  day : Option String := none
deriving DecidableEq

/-- The `month_map` of `_date_from_parts`. -/
def monthMap : List (String × Int) :=
  [("jan", 1), ("feb", 2), ("mar", 3), ("apr", 4), ("may", 5), ("jun", 6),
   ("jul", 7), ("aug", 8), ("sep", 9), ("oct", 10), ("nov", 11), ("dec", 12)]

/-- `month_map.get(month.strip().lower()[:3])`. -/
def monthAbbrev (month : String) : Option Int :=
  (monthMap.find? (fun kv => kv.1 == (⟨(strStrip (strLower month)).data.take 3⟩ : String))).map (·.2)

/-- `_date_from_parts(year, month, day)`.  Python truthiness: a `None` or
empty `year` yields `None`; a month that is neither an int nor a known
abbreviation (or the falsy int `0`) defaults to 1; a day that is not an
int defaults to 1; an invalid calendar date yields `None`. -/
def _date_from_parts (year month day : Option String) : Option PyDate :=
  match year with
  | none => none
  | some ys =>
    if ys = "" then none
    else
      match pyInt? ys with
      | none => none
      | some y =>
        let m :=
          match month with
          | none => 1
          | some ms =>
            if ms = "" then 1
            else
              match (match pyInt? ms with
                     | some mi => some mi
                     | none => monthAbbrev ms) with
              | none => 1
              | some mi => if mi = 0 then 1 else mi
        let d :=
          match day with
          | none => 1
          | some dstr =>
            if dstr = "" then 1
            else (match pyInt? dstr with | some di => di | none => 1)
        match makeDate y m d with
        | .ok pd => some pd
        | .error _ => none

/-- One `PubmedArticle` XML record, reduced to the values the parser
extracts: the concatenated `ArticleTitle` text, the stripped
`AbstractText` parts, the author `LastName`s present in document order,
the `PMID` text, the `Journal/Title` text, and the two date candidates.
An article whose `MedlineCitation`/`Article` elements are missing is
modelled as one whose title text is empty (both are discarded). -/
structure PubmedArticle where
  title : String := ""
  abstractParts : List String := []
  authorLastNames : List String := []
  pmid : String := ""
  journal : String := ""
  articleDate : Option DateParts := none
  journalPubDate : Option DateParts := none
deriving DecidableEq

/-- `_parse_pubmed_date(article_elem, medline)`: explicit `ArticleDate`,
then the journal issue `PubDate`, then `date.today()`. -/
def _parse_pubmed_date (article : PubmedArticle) (today : PyDate) : PyDate :=
  match article.articleDate.bind (fun dp => _date_from_parts dp.year dp.month dp.day) with
  | some d => d
  | none =>
    match article.journalPubDate.bind (fun dp => _date_from_parts dp.year dp.month dp.day) with
    | some d => d
    | none => today

/-- `_parse_pubmed_article(article)`: `none` discards a record with no
title (and, per the modelling above, a structurally malformed record). -/
def _parse_pubmed_article (today : PyDate) (article : PubmedArticle) : Option Paper :=
  let title := strStrip article.title
  if title = "" then none
  else
    some
      { title := title
        authors := etAlJoin article.authorLastNames
        abstract := joinSep " " (article.abstractParts.map strStrip)
        url := if article.pmid ≠ "" then
                 "https://pubmed.ncbi.nlm.nih.gov/" ++ article.pmid ++ "/"
               else ""
        published_date := _parse_pubmed_date article today
        source := "pubmed"
        journal := strStrip article.journal }

/-- The per-article loop of `_fetch_pubmed_with_query`: a record whose
parse returns `None` (or raises) is skipped, the rest kept in order. -/
def pubmedLoop (today : PyDate) (articles : List PubmedArticle) : List Paper :=
  articles.filterMap (_parse_pubmed_article today)

/-- The two-phase PubMed exchange: the id list returned by `esearch`, and
the outcome of the subsequent `efetch` request plus XML parsing
(`.error` for a request failure or `ET.fromstring` raising). -/
structure PubmedPhases where
  ids : List String
  articles : Except String (List PubmedArticle)

/-- `_fetch_pubmed_with_query(days, max_results, terms, journals, client)`.
`resp` is `.error` when the `esearch` phase fails (network error, non-2xx,
malformed JSON); otherwise it carries the id list and the `efetch`
outcome.  An empty id list short-circuits to `[]`; an `efetch` failure is
caught by the same outer `try` with `papers` still empty.  The query
parameters only shape the requests. -/
def _fetch_pubmed_with_query (today : PyDate) (resp : Except String PubmedPhases) :
    List Paper :=
  match resp with
  | .error _ => []
  | .ok phases =>
    if phases.ids.isEmpty then []
    else
      match phases.articles with
      | .error _ => []
      | .ok articles => pubmedLoop today articles

/-! ### Helper lemmas: rounding -/

theorem round1_intCast (n : ℤ) : round1 ((n : ℚ)) = n := by
  unfold round1
  rw [show (10 * (n : ℚ)) = ((10 * n : ℤ) : ℚ) by push_cast; ring, round_intCast]
  rw [div_eq_iff (by norm_num : (10 : ℚ) ≠ 0)]
  push_cast
  ring

theorem round1_mono {x y : ℚ} (h : x ≤ y) : round1 x ≤ round1 y := by
  unfold round1
  have hr : round (10 * x) ≤ round (10 * y) := by
    rw [round_eq, round_eq]
    exact Int.floor_mono (by linarith)
  have := (div_le_div_iff_of_pos_right (c := (10 : ℚ)) (by norm_num)).mpr
    (by exact_mod_cast hr : ((round (10 * x) : ℤ) : ℚ) ≤ ((round (10 * y) : ℤ) : ℚ))
  simpa using this

/-! ### Helper lemmas: the scoring loop -/

theorem scoreLoop_eq (title abstract : String) (tm : ℚ) :
    ∀ (areas : List (String × ResearchArea)) (ma : List String) (t : ℚ),
      areas.foldl
        (fun (acc : List String × ℚ) na =>
          let s := areaScore title abstract tm na.2.terms
          if 0 < s then (acc.1 ++ [na.1], acc.2 + s * na.2.weight) else acc)
        (ma, t)
      = (ma ++ (areas.filter
            (fun na => decide (0 < areaScore title abstract tm na.2.terms))).map (·.1),
         t + (areas.map (fun na =>
            if 0 < areaScore title abstract tm na.2.terms then
              areaScore title abstract tm na.2.terms * na.2.weight
            else 0)).sum)
  | [], ma, t => by simp
  | na :: areas, ma, t => by
    by_cases h : 0 < areaScore title abstract tm na.2.terms
    · simp only [List.foldl_cons, if_pos h]
      rw [scoreLoop_eq title abstract tm areas (ma ++ [na.1])
        (t + areaScore title abstract tm na.2.terms * na.2.weight)]
      simp [h, List.filter_cons, add_assoc]
    · simp only [List.foldl_cons, if_neg h]
      rw [scoreLoop_eq title abstract tm areas ma t]
      simp [h, List.filter_cons]

theorem score_paper_eq (p : Paper) (cfg : Config) :
    score_paper p cfg =
      { p with matched_areas := matchedAreasSpec p cfg,
               score := round1 (totalScoreSpec p cfg) } := by
  simp only [score_paper, matchedAreasSpec, totalScoreSpec, scoreLoop_eq]
  simp

/-- C2: `score_paper` iterates the configuration's areas in order; each
term contributes `title_multiplier` when its lower-cased form occurs in the
lower-cased title and `1.0` when it occurs in the lower-cased abstract; an
area with positive local score contributes its name to `matched_areas` and
local score × weight to the total; the final score is the total rounded to
one decimal place. -/
theorem score_paper_matches_spec (p : Paper) (cfg : Config) :
    score_paper p cfg =
      { p with matched_areas := matchedAreasSpec p cfg,
               score := round1 (totalScoreSpec p cfg) } :=
  score_paper_eq p cfg

/-- C10: scoring changes only the `matched_areas` and `score` fields; the
title, authors, abstract, url, published date, source and journal of the
paper are unchanged. -/
theorem score_paper_frame (p : Paper) (cfg : Config) :
    (score_paper p cfg).title = p.title ∧
    (score_paper p cfg).authors = p.authors ∧
    (score_paper p cfg).abstract = p.abstract ∧
    (score_paper p cfg).url = p.url ∧
    (score_paper p cfg).published_date = p.published_date ∧
    (score_paper p cfg).source = p.source ∧
    (score_paper p cfg).journal = p.journal :=
  ⟨rfl, rfl, rfl, rfl, rfl, rfl, rfl⟩

/-! ### Helper lemmas: deduplication -/

theorem dedupPapers_sound :
    ∀ (seen : List String) (l : List Paper) (p : Paper),
      p ∈ dedupPapers seen l →
      p.url ≠ "" ∧ p.url ∉ seen ∧ l.find? (fun q => q.url == p.url) = some p
  | seen, [], p => by simp [dedupPapers]
  | seen, q :: l, p => by
    unfold dedupPapers
    by_cases h : q.url ≠ "" ∧ q.url ∉ seen
    · rw [if_pos h]
      intro hp
      rcases List.mem_cons.mp hp with rfl | hp'
      · exact ⟨h.1, h.2, by simp [List.find?]⟩
      · obtain ⟨h1, h2, h3⟩ := dedupPapers_sound (q.url :: seen) l p hp'
        have hne : q.url ≠ p.url := fun he => h2 (he ▸ List.mem_cons_self _ _)
        refine ⟨h1, fun hs => h2 (List.mem_cons_of_mem _ hs), ?_⟩
        simp only [List.find?]
        rw [show (q.url == p.url) = false from beq_eq_false_iff_ne.mpr hne]
        exact h3
    · rw [if_neg h]
      intro hp
      obtain ⟨h1, h2, h3⟩ := dedupPapers_sound seen l p hp
      have hne : q.url ≠ p.url := by
        rcases not_and_or.mp h with h' | h'
        · intro he
          exact h1 (he ▸ (not_not.mp h'))
        · intro he
          exact h2 (he ▸ (not_not.mp h'))
      refine ⟨h1, h2, ?_⟩
      simp only [List.find?]
      rw [show (q.url == p.url) = false from beq_eq_false_iff_ne.mpr hne]
      exact h3

theorem dedupPapers_urls_nodup :
    ∀ (seen : List String) (l : List Paper),
      ((dedupPapers seen l).map (·.url)).Nodup
  | seen, [] => by simp [dedupPapers]
  | seen, q :: l => by
    unfold dedupPapers
    by_cases h : q.url ≠ "" ∧ q.url ∉ seen
    · rw [if_pos h]
      refine List.nodup_cons.mpr ⟨?_, dedupPapers_urls_nodup (q.url :: seen) l⟩
      intro hmem
      obtain ⟨p, hp, hpu⟩ := List.mem_map.mp hmem
      exact (dedupPapers_sound _ _ _ hp).2.1 (hpu ▸ List.mem_cons_self _ _)
    · rw [if_neg h]
      exact dedupPapers_urls_nodup seen l

theorem dedupPapers_fixpoint :
    ∀ (seen : List String) (l : List Paper),
      (∀ p ∈ l, p.url ≠ "" ∧ p.url ∉ seen) →
      ((l.map (·.url)).Nodup) →
      dedupPapers seen l = l
  | seen, [], _, _ => rfl
  | seen, q :: l, hall, hnd => by
    unfold dedupPapers
    rw [if_pos (hall q (List.mem_cons_self _ _))]
    have hnd' : (∀ x ∈ l, ¬ x.url = q.url) ∧ ((l.map (·.url)).Nodup) := by
      simpa using hnd
    refine congrArg (q :: ·) (dedupPapers_fixpoint (q.url :: seen) l ?_ hnd'.2)
    intro p hp
    refine ⟨(hall p (List.mem_cons_of_mem _ hp)).1, ?_⟩
    intro hmem
    rcases List.mem_cons.mp hmem with he | hs
    · exact hnd'.1 p hp he
    · exact (hall p (List.mem_cons_of_mem _ hp)).2 hs

/-! ### C1 -/

/-- C1 counterexample: two distinct adapter records that both have an empty
url do NOT survive the merge — the merge loop's `if paper.url and ...`
guard drops every empty-url record, so the merged output is empty. -/
theorem empty_url_both_dropped_cex :
    mergeResults [.ok
      [{ title := "A", authors := "", abstract := "", url := "",
         published_date := ⟨2026, 1, 1⟩, source := "pubmed" },
       { title := "B", authors := "", abstract := "", url := "",
         published_date := ⟨2026, 1, 2⟩, source := "biorxiv" }]] = [] ∧
    ({ title := "A", authors := "", abstract := "", url := "",
       published_date := ⟨2026, 1, 1⟩, source := "pubmed" } : Paper) ≠
    ({ title := "B", authors := "", abstract := "", url := "",
       published_date := ⟨2026, 1, 2⟩, source := "biorxiv" } : Paper) := by
  constructor
  · rfl
  · decide

/-- C1 amended: records with an empty url are never deduplicated against
each other because the merge drops every empty-url record — no paper in
the merged output has an empty url. -/
theorem merge_drops_empty_url (results : List (Except String (List Paper)))
    (p : Paper) (hp : p ∈ mergeResults results) : p.url ≠ "" :=
  (dedupPapers_sound [] _ p hp).1

theorem merge_drops_empty_url_witness :
    ({ title := "A", authors := "", abstract := "", url := "u",
       published_date := ⟨2026, 1, 1⟩, source := "pubmed" } : Paper).url ≠ "" :=
  merge_drops_empty_url
    [.ok [{ title := "A", authors := "", abstract := "", url := "u",
            published_date := ⟨2026, 1, 1⟩, source := "pubmed" }]]
    _ (by decide)

/-! ### C8 -/

/-- C8: the merge step is idempotent — feeding its own output back through
the merge yields exactly the same sequence of papers. -/
theorem merge_idempotent (results : List (Except String (List Paper))) :
    mergeResults [.ok (mergeResults results)] = mergeResults results := by
  unfold mergeResults
  simp only [List.map_cons, List.map_nil, okPapers, List.flatten_cons,
    List.flatten_nil, List.append_nil]
  exact dedupPapers_fixpoint [] _
    (fun p hp => ⟨(dedupPapers_sound [] _ p hp).1, (dedupPapers_sound [] _ p hp).2.1⟩)
    (dedupPapers_urls_nodup [] _)

/-! ### C9 -/

/-- C9: adapter results are joined in the fixed task-launch order (PubMed
keyword search, PubMed high-impact search, bioRxiv, arXiv, each under its
enable flag), and the first-seen-wins rule keeps, for every url in the
merged output, exactly the first paper carrying that url in the flattened
stream of that fixed order — so the winner of any cross-adapter duplicate
is the copy from the earliest adapter, deterministically. -/
theorem merge_first_seen_wins (config : Config)
    (pubmed_r high_impact_r biorxiv_r arxiv_r : Except String (List Paper))
    (p : Paper)
    (hp : p ∈ mergeResults (joinedResults config pubmed_r high_impact_r biorxiv_r arxiv_r)) :
    (((joinedResults config pubmed_r high_impact_r biorxiv_r arxiv_r).map okPapers).flatten).find?
      (fun q => q.url == p.url) = some p :=
  (dedupPapers_sound [] _ p hp).2.2

theorem merge_first_seen_wins_witness :
    (((joinedResults
        { areas := [], lookback_days := 7, max_results := 200, title_multiplier := 2,
          pubmed_enabled := true, biorxiv_enabled := true, arxiv_enabled := true,
          arxiv_categories := [], high_impact_journals := ["Nature"],
          high_impact_lookback_days := 90, other_lookback_options := [] }
        (.ok [{ title := "from pubmed", authors := "", abstract := "", url := "u",
                published_date := ⟨2026, 1, 1⟩, source := "pubmed" }])
        (.ok [])
        (.ok [{ title := "from biorxiv", authors := "", abstract := "", url := "u",
                published_date := ⟨2026, 1, 2⟩, source := "biorxiv" }])
        (.ok [])).map okPapers).flatten).find?
      (fun q => q.url ==
        ({ title := "from pubmed", authors := "", abstract := "", url := "u",
           published_date := ⟨2026, 1, 1⟩, source := "pubmed" } : Paper).url) =
      some { title := "from pubmed", authors := "", abstract := "", url := "u",
             published_date := ⟨2026, 1, 1⟩, source := "pubmed" } :=
  merge_first_seen_wins _ _ _ _ _ _ (by decide)

/-! ### C6 -/

/-- C6: adapter failure isolation.  Each adapter maps a whole-request
failure (network error, non-2xx status, malformed top-level payload —
the `.error` case of its response, plus PubMed's empty-id and failed
second phase) to the empty paper list instead of raising, and a parse
failure of an individual record skips exactly that record while its
sibling records are still processed. -/
theorem adapter_failure_isolation (today cutoff : PyDate) (days : Int) (cap : Nat) :
    (∀ e, _fetch_pubmed_with_query today (.error e) = []) ∧
    (∀ ids e, _fetch_pubmed_with_query today (.ok ⟨ids, .error e⟩) = []) ∧
    (∀ e, fetch_biorxiv days cap (.error e) = []) ∧
    (∀ e, fetch_arxiv cutoff (.error e) = []) ∧
    (∀ (l1 l2 : List PubmedArticle) (a : PubmedArticle),
      _parse_pubmed_article today a = none →
      pubmedLoop today (l1 ++ a :: l2) = pubmedLoop today (l1 ++ l2)) ∧
    (∀ (l1 l2 : List BiorxivItem) (b : BiorxivItem) (e : String),
      parse_biorxiv_item b = .error e →
      biorxivLoop (l1 ++ b :: l2) = biorxivLoop (l1 ++ l2)) ∧
    (∀ (l1 l2 : List ArxivEntry) (b : ArxivEntry) (e : String),
      parse_arxiv_entry cutoff b = .error e →
      arxivLoop cutoff (l1 ++ b :: l2) = arxivLoop cutoff (l1 ++ l2)) := by
  refine ⟨fun e => rfl, fun ids e => ?_, fun e => rfl, fun e => rfl, ?_, ?_, ?_⟩
  · unfold _fetch_pubmed_with_query
    by_cases h : ids.isEmpty <;> simp [h]
  · intro l1 l2 a ha
    unfold pubmedLoop
    simp [List.filterMap_append, ha]
  · intro l1 l2 b e hb
    unfold biorxivLoop
    simp [List.filterMap_append, hb, Except.toOption]
  · intro l1 l2 b e hb
    unfold arxivLoop
    simp [List.filterMap_append, hb]

theorem adapter_failure_isolation_witness :
    (biorxivLoop
      [{ date := "garbage" },
       { doi := "10.1101/X", title := "Good", date := "2026-01-05" }] =
     biorxivLoop [{ doi := "10.1101/X", title := "Good", date := "2026-01-05" }]) ∧
    (arxivLoop ⟨2025, 12, 25⟩
      [{ published := "not-a-date", title := "Bad" },
       { published := "2026-01-02T10:00:00Z", title := "Good", link := "u" }] =
     arxivLoop ⟨2025, 12, 25⟩
      [{ published := "2026-01-02T10:00:00Z", title := "Good", link := "u" }]) ∧
    (pubmedLoop ⟨2026, 1, 10⟩
      [{ title := "  " }, { title := "Good", pmid := "1" }] =
     pubmedLoop ⟨2026, 1, 10⟩ [{ title := "Good", pmid := "1" }]) ∧
    (fetch_biorxiv 7 200 (.error "network down") = []) := by
  have h := adapter_failure_isolation ⟨2026, 1, 10⟩ ⟨2025, 12, 25⟩ 7 200
  refine ⟨h.2.2.2.2.2.1 [] _ _ "ValueError" rfl,
          h.2.2.2.2.2.2 [] _ _ "ValueError" rfl,
          h.2.2.2.2.1 [] _ _ rfl,
          h.2.2.1 "network down"⟩

/-! ### C4 -/

/-- A paper that differs from the defaults only in its journal field. -/
def journalOnlyPaper (j : String) : Paper :=
  { title := "", authors := "", abstract := "", url := "",
    published_date := ⟨2026, 1, 1⟩, source := "pubmed", journal := j }

/-- A configuration that carries a given high-impact journal list (the
other fields are arbitrary defaults; `is_high_impact` reads only
`high_impact_journals`). -/
def journalListConfig (js : List String) : Config :=
  { areas := [], lookback_days := 7, max_results := 200, title_multiplier := 2,
    pubmed_enabled := true, biorxiv_enabled := true, arxiv_enabled := true,
    arxiv_categories := [], high_impact_journals := js,
    high_impact_lookback_days := 90, other_lookback_options := [7, 14, 30, 60, 90] }

/-- C4 counterexample: the claimed characterisation ("true iff normalized
strings are equal, or either is a substring of the other, or the alias
table maps one to the other") fails for a paper whose non-empty journal
normalizes to the empty string: `""` is a substring of `"pnas"`, so the
claimed condition holds, yet `is_high_impact` returns `false` (it bails
out on an empty normalization, and likewise skips configured journals
with empty normalization). -/
theorem is_high_impact_claim_cex :
    is_high_impact (journalOnlyPaper "!!!") (journalListConfig ["PNAS"]) = false ∧
    (journalOnlyPaper "!!!").journal ≠ "" ∧
    strIn (_normalize_journal (journalOnlyPaper "!!!").journal)
      (_normalize_journal "PNAS") = true := by
  refine ⟨?_, ?_, ?_⟩ <;> decide

/-- C4 amended: `is_high_impact` normalizes the paper's journal and every
configured journal by lower-casing and stripping non-alphanumerics, and
returns true iff the paper's normalization is non-empty and some
configured journal with non-empty normalization is equal to it, or is a
substring of it (or conversely), or is mapped to it by the fixed alias
table (in either direction); a paper with an empty journal string is never
high-impact (its normalization is empty).  The three concrete examples of
the claim hold. -/
theorem is_high_impact_characterization :
    (∀ (p : Paper) (cfg : Config),
      is_high_impact p cfg = true ↔
        (_normalize_journal p.journal ≠ "" ∧
         ∃ j ∈ cfg.high_impact_journals,
           _normalize_journal j ≠ "" ∧
           (_normalize_journal p.journal = _normalize_journal j ∨
            strIn (_normalize_journal j) (_normalize_journal p.journal) = true ∨
            strIn (_normalize_journal p.journal) (_normalize_journal j) = true ∨
            aliasMap (_normalize_journal j) = some (_normalize_journal p.journal) ∨
            aliasMap (_normalize_journal p.journal) = some (_normalize_journal j)))) ∧
    is_high_impact (journalOnlyPaper "Proc Natl Acad Sci USA")
      (journalListConfig ["PNAS"]) = true ∧
    is_high_impact (journalOnlyPaper "") (journalListConfig ["PNAS"]) = false ∧
    is_high_impact (journalOnlyPaper "Nature Reviews Genetics")
      (journalListConfig ["Nature"]) = true := by
  refine ⟨?_, by decide, by decide, by decide⟩
  intro p cfg
  simp only [is_high_impact]
  by_cases h1 : p.journal = ""
  · simp [h1, show _normalize_journal "" = "" from rfl]
  · simp only [if_neg h1]
    by_cases h2 : _normalize_journal p.journal = ""
    · simp [h2]
    · simp only [if_neg h2, List.any_eq_true]
      constructor
      · rintro ⟨j, hj, hcond⟩
        refine ⟨h2, j, hj, ?_⟩
        by_cases h3 : _normalize_journal j = ""
        · simp [h3] at hcond
        · simp only [if_neg h3] at hcond
          refine ⟨h3, ?_⟩
          simpa [or_assoc] using hcond
      · rintro ⟨-, j, hj, h3, hcond⟩
        refine ⟨j, hj, ?_⟩
        simp only [if_neg h3]
        simpa [or_assoc] using hcond

/-! ### Helper lemmas: the cache key's area sorting -/

instance : IsTotal (String × ResearchArea) areaItemLe :=
  ⟨fun a b => le_total a.1 b.1⟩

instance : IsTrans (String × ResearchArea) areaItemLe :=
  ⟨fun _ _ _ h1 h2 => le_trans h1 h2⟩

instance : IsAntisymm (String × ResearchArea) (fun a b => a.1 < b.1) :=
  ⟨fun _ _ h1 h2 => (lt_asymm h1 h2).elim⟩

/-- Sorting dict items by key is insensitive to the order of the items
when the keys are distinct (the dict invariant). -/
theorem insertionSort_areaItemLe_perm_eq
    (l1 l2 : List (String × ResearchArea))
    (hperm : l1.Perm l2) (hnd : (l1.map Prod.fst).Nodup) :
    List.insertionSort areaItemLe l1 = List.insertionSort areaItemLe l2 := by
  have sortedStrict : ∀ (l : List (String × ResearchArea)),
      (l.map Prod.fst).Nodup →
      List.Sorted (fun a b => a.1 < b.1) (List.insertionSort areaItemLe l) := by
    intro l hl
    have hsorted : List.Sorted areaItemLe (List.insertionSort areaItemLe l) :=
      List.sorted_insertionSort areaItemLe l
    have hnds : ((List.insertionSort areaItemLe l).map Prod.fst).Nodup :=
      (((List.perm_insertionSort areaItemLe l).map Prod.fst).nodup_iff).mpr hl
    have hne : List.Pairwise (fun a b : String × ResearchArea => a.1 ≠ b.1)
        (List.insertionSort areaItemLe l) := List.pairwise_map.mp hnds
    exact (hsorted.and hne).imp (fun h => lt_of_le_of_ne h.1 h.2)
  have hnd2 : (l2.map Prod.fst).Nodup := ((hperm.map Prod.fst).nodup_iff).mp hnd
  exact List.eq_of_perm_of_sorted
    (((List.perm_insertionSort areaItemLe l1).trans hperm).trans
      (List.perm_insertionSort areaItemLe l2).symm)
    (sortedStrict l1 hnd) (sortedStrict l2 hnd2)

/-! ### C3 -/

/-- C3: (1) two configurations with the same lookback windows, result cap,
enable flags, arXiv categories, title multiplier, high-impact journal list,
and the same interest-area items up to area order (with the dict's
unique-name invariant; term order within an area is preserved) produce
equal cache keys; (2) if a call ran the fetch phase, a second call with an
equal key at most 300 seconds later returns the identical paper sequence
without running the fetch phase and leaves the cache slot untouched;
(3) a call whose key differs from the cached one or whose cache age is at
least 300 seconds runs the fetch phase and overwrites the single slot. -/
theorem cache_hit_within_ttl :
    (∀ (cfg1 cfg2 : Config) (lb hi : Int),
       cfg1.areas.Perm cfg2.areas →
       (cfg1.areas.map Prod.fst).Nodup →
       cfg1.max_results = cfg2.max_results →
       cfg1.title_multiplier = cfg2.title_multiplier →
       cfg1.pubmed_enabled = cfg2.pubmed_enabled →
       cfg1.biorxiv_enabled = cfg2.biorxiv_enabled →
       cfg1.arxiv_enabled = cfg2.arxiv_enabled →
       cfg1.arxiv_categories = cfg2.arxiv_categories →
       cfg1.high_impact_journals = cfg2.high_impact_journals →
       cacheKey cfg1 lb hi = cacheKey cfg2 lb hi) ∧
    (∀ (cfg1 cfg2 : Config) (lb hi : Int) (now1 now2 : ℚ) (cache : CacheState)
       (rs1 rs2 : List (Except String (List Paper))),
       cacheKey cfg1 lb hi = cacheKey cfg2 lb hi →
       (fetch_all_papers_for_days cfg1 lb hi now1 cache rs1).2.2 = true →
       now1 ≤ now2 → now2 - now1 < 300 →
       fetch_all_papers_for_days cfg2 lb hi now2
           (fetch_all_papers_for_days cfg1 lb hi now1 cache rs1).2.1 rs2 =
         ((fetch_all_papers_for_days cfg1 lb hi now1 cache rs1).1,
          (fetch_all_papers_for_days cfg1 lb hi now1 cache rs1).2.1, false)) ∧
    (∀ (cfg : Config) (lb hi : Int) (now : ℚ) (cache : CacheState)
       (rs : List (Except String (List Paper))),
       ¬(cache.key = some (cacheKey cfg lb hi) ∧ now - cache.timestamp < 300) →
       fetch_all_papers_for_days cfg lb hi now cache rs =
         (relevantPapers cfg rs,
          ⟨now, some (cacheKey cfg lb hi), some (relevantPapers cfg rs)⟩, true)) := by
  refine ⟨?_, ?_, ?_⟩
  · intro cfg1 cfg2 lb hi hperm hnd h1 h2 h3 h4 h5 h6 h7
    have hs : sortedAreas cfg1 = sortedAreas cfg2 :=
      insertionSort_areaItemLe_perm_eq cfg1.areas cfg2.areas hperm hnd
    simp [cacheKey, hs, h1, h2, h3, h4, h5, h6, h7]
  · intro cfg1 cfg2 lb hi now1 now2 cache rs1 rs2 hkey hf hle hlt
    by_cases hcond : cache.key = some (cacheKey cfg1 lb hi) ∧ now1 - cache.timestamp < 300
    · rw [show fetch_all_papers_for_days cfg1 lb hi now1 cache rs1 =
          (cache.papers.getD [], cache, false) from if_pos hcond] at hf
      simp at hf
    · have h1 : fetch_all_papers_for_days cfg1 lb hi now1 cache rs1 =
          (relevantPapers cfg1 rs1,
           ⟨now1, some (cacheKey cfg1 lb hi), some (relevantPapers cfg1 rs1)⟩, true) :=
        if_neg hcond
      rw [h1]
      exact if_pos ⟨by simp [hkey], by simpa using hlt⟩
  · intro cfg lb hi now cache rs hcond
    exact if_neg hcond

theorem cache_hit_within_ttl_witness :
    fetch_all_papers_for_days (journalListConfig ["Nature"]) 7 90 10
        (fetch_all_papers_for_days (journalListConfig ["Nature"]) 7 90 0 initialCache []).2.1 [] =
      ((fetch_all_papers_for_days (journalListConfig ["Nature"]) 7 90 0 initialCache []).1,
       (fetch_all_papers_for_days (journalListConfig ["Nature"]) 7 90 0 initialCache []).2.1,
       false) :=
  cache_hit_within_ttl.2.1 _ _ 7 90 0 10 initialCache [] [] rfl
    (by simp [fetch_all_papers_for_days, initialCache])
    (by norm_num) (by norm_num)

/-! ### Helper lemmas: the sort order -/

theorem pyDate_le_total (a b : PyDate) : PyDate.le a b ∨ PyDate.le b a := by
  unfold PyDate.le
  omega

theorem pyDate_le_trans {a b c : PyDate} (h1 : PyDate.le a b) (h2 : PyDate.le b c) :
    PyDate.le a c := by
  unfold PyDate.le at *
  omega

instance : IsTotal Paper paperKeyLe := ⟨by
  intro a b
  unfold paperKeyLe
  rcases lt_trichotomy (-a.score) (-b.score) with h | h | h
  · exact Or.inl (Or.inl h)
  · rcases pyDate_le_total a.published_date b.published_date with hd | hd
    · exact Or.inl (Or.inr ⟨h, hd⟩)
    · exact Or.inr (Or.inr ⟨h.symm, hd⟩)
  · exact Or.inr (Or.inl h)⟩

instance : IsTrans Paper paperKeyLe := ⟨by
  intro a b c hab hbc
  unfold paperKeyLe at *
  rcases hab with h1 | ⟨h1, hd1⟩
  · rcases hbc with h2 | ⟨h2, hd2⟩
    · exact Or.inl (h1.trans h2)
    · exact Or.inl (h2 ▸ h1)
  · rcases hbc with h2 | ⟨h2, hd2⟩
    · exact Or.inl (by rw [h1]; exact h2)
    · exact Or.inr ⟨h1.trans h2, pyDate_le_trans hd1 hd2⟩⟩

/-! ### C5 -/

/-- Invariant of the cache slot: any stored snapshot holds only positively
scored papers and is sorted in the pipeline's order.  It holds for the
initial cache (which stores nothing) and is preserved by every call, so it
characterises every reachable cache state. -/
def goodCache (c : CacheState) : Prop :=
  ∀ ps, c.papers = some ps →
    (∀ p ∈ ps, 0 < p.score) ∧ List.Sorted paperKeyLe ps

/-- C5: from any reachable cache state, the sequence returned by
`fetch_all_papers_for_days` contains only papers with score strictly
greater than 0, and is sorted ascending in (negated score, published
date) — i.e. descending by score with ties broken by ascending published
date; moreover the cache invariant is preserved. -/
theorem output_positive_and_sorted (cfg : Config) (lb hi : Int) (now : ℚ)
    (cache : CacheState) (rs : List (Except String (List Paper)))
    (hgood : goodCache cache) :
    (∀ p ∈ (fetch_all_papers_for_days cfg lb hi now cache rs).1, 0 < p.score) ∧
    List.Sorted paperKeyLe (fetch_all_papers_for_days cfg lb hi now cache rs).1 ∧
    goodCache (fetch_all_papers_for_days cfg lb hi now cache rs).2.1 := by
  by_cases hcond : cache.key = some (cacheKey cfg lb hi) ∧ now - cache.timestamp < 300
  · have he : fetch_all_papers_for_days cfg lb hi now cache rs =
        (cache.papers.getD [], cache, false) := if_pos hcond
    rw [he]
    cases hp : cache.papers with
    | none => exact ⟨by simp [hp], by simp [hp, List.Sorted], hgood⟩
    | some ps =>
      obtain ⟨h1, h2⟩ := hgood ps hp
      exact ⟨by simpa [hp] using h1, by simpa [hp] using h2, hgood⟩
  · have he : fetch_all_papers_for_days cfg lb hi now cache rs =
        (relevantPapers cfg rs,
         ⟨now, some (cacheKey cfg lb hi), some (relevantPapers cfg rs)⟩, true) :=
      if_neg hcond
    rw [he]
    have h1 : ∀ p ∈ relevantPapers cfg rs, 0 < p.score := by
      intro p hp
      unfold relevantPapers at hp
      have hp' := (List.perm_insertionSort paperKeyLe _).mem_iff.mp hp
      have := List.mem_filter.mp hp'
      exact of_decide_eq_true this.2
    have h2 : List.Sorted paperKeyLe (relevantPapers cfg rs) :=
      List.sorted_insertionSort paperKeyLe _
    refine ⟨h1, h2, ?_⟩
    intro ps hps
    have : relevantPapers cfg rs = ps := by simpa using hps
    exact this ▸ ⟨h1, h2⟩

theorem output_positive_and_sorted_witness :
    List.Sorted paperKeyLe
      (fetch_all_papers_for_days (journalListConfig []) 7 90 0 initialCache []).1 :=
  (output_positive_and_sorted _ 7 90 0 initialCache []
    (by intro ps h; simp [initialCache] at h)).2.1

/-! ### Helper lemmas: area scores as sums -/

theorem foldl_add_eq (f : String → ℚ) :
    ∀ (l : List String) (a : ℚ),
      l.foldl (fun acc x => acc + f x) a = a + (l.map f).sum
  | [], a => by simp
  | x :: l, a => by
    simp only [List.foldl_cons, List.map_cons, List.sum_cons]
    rw [foldl_add_eq f l (a + f x)]
    ring

theorem areaScore_eq_sum (T A : String) (tm : ℚ) (terms : List String) :
    areaScore T A tm terms = areaScoreSum T A tm terms := by
  unfold areaScore areaScoreSum
  rw [foldl_add_eq]
  ring

theorem areaScoreSum_nonneg (T A : String) {tm : ℚ} (htm : 0 ≤ tm)
    (terms : List String) : 0 ≤ areaScoreSum T A tm terms := by
  unfold areaScoreSum
  apply List.sum_nonneg
  intro x hx
  obtain ⟨term, _, rfl⟩ := List.mem_map.mp hx
  have h1 : (0 : ℚ) ≤ (if strIn (strLower term) T then tm else 0) := by positivity
  have h2 : (0 : ℚ) ≤ (if strIn (strLower term) A then (1 : ℚ) else 0) := by positivity
  linarith

/-! ### C7 -/

/-- C7 counterexample: with a negatively weighted area (which `Config`
admits — no code path validates weights), extending the area's term list
with a previously-absent matching term strictly decreases the paper's
score: from 0 (no match) to -2. -/
theorem score_monotonicity_cex :
    (score_paper
      { title := "x", authors := "", abstract := "", url := "u",
        published_date := ⟨2026, 1, 1⟩, source := "pubmed" }
      { areas := [("a", { name := "a", terms := ["x"], weight := -1 })],
        lookback_days := 7, max_results := 200, title_multiplier := 2,
        pubmed_enabled := true, biorxiv_enabled := true, arxiv_enabled := true,
        arxiv_categories := [], high_impact_journals := [],
        high_impact_lookback_days := 90, other_lookback_options := [] }).score <
    (score_paper
      { title := "x", authors := "", abstract := "", url := "u",
        published_date := ⟨2026, 1, 1⟩, source := "pubmed" }
      { areas := [("a", { name := "a", terms := [], weight := -1 })],
        lookback_days := 7, max_results := 200, title_multiplier := 2,
        pubmed_enabled := true, biorxiv_enabled := true, arxiv_enabled := true,
        arxiv_categories := [], high_impact_journals := [],
        high_impact_lookback_days := 90, other_lookback_options := [] }).score := by
  have hs1 : strIn (strLower "x") (strLower "x") = true := by decide
  have hs2 : strIn (strLower "x") (strLower "") = false := by decide
  rw [score_paper_eq, score_paper_eq]
  simp only [totalScoreSpec, List.map_cons, List.map_nil, List.sum_cons, List.sum_nil]
  norm_num [areaScore, hs1, hs2]
  rw [show (-2 : ℚ) = ((-2 : ℤ) : ℚ) by norm_num,
      show (0 : ℚ) = ((0 : ℤ) : ℚ) by norm_num,
      round1_intCast, round1_intCast]
  norm_num

/-- C7 amended: provided every area weight and the title multiplier are
nonnegative (as the spec's data model requires of a configuration),
extending one interest area's term list with a previously-absent term
never decreases the score `score_paper` assigns to any paper. -/
theorem score_monotone_nonneg_weights
    (p : Paper) (cfg : Config) (pre post : List (String × ResearchArea))
    (nm : String) (area : ResearchArea) (t : String)
    (hw : ∀ na ∈ cfg.areas, 0 ≤ na.2.weight)
    (htm : 0 ≤ cfg.title_multiplier)
    (hsplit : cfg.areas = pre ++ (nm, area) :: post)
    (_hnew : t ∉ area.terms) :
    (score_paper p cfg).score ≤
    (score_paper p
      { cfg with areas := pre ++ (nm, { area with terms := area.terms ++ [t] }) :: post }).score := by
  rw [score_paper_eq, score_paper_eq]
  show round1 (totalScoreSpec p cfg) ≤ round1 (totalScoreSpec p _)
  apply round1_mono
  have hwarea : 0 ≤ area.weight := by
    have := hw (nm, area) (by rw [hsplit]; exact List.mem_append_right _ (List.mem_cons_self _ _))
    simpa using this
  unfold totalScoreSpec
  rw [hsplit]
  simp only [List.map_append, List.map_cons, List.sum_append, List.sum_cons]
  have hmid : ∀ (T A : String),
      (if 0 < areaScore T A cfg.title_multiplier area.terms then
        areaScore T A cfg.title_multiplier area.terms * area.weight else 0) ≤
      (if 0 < areaScore T A cfg.title_multiplier (area.terms ++ [t]) then
        areaScore T A cfg.title_multiplier (area.terms ++ [t]) * area.weight else 0) := by
    intro T A
    have hle : areaScore T A cfg.title_multiplier area.terms ≤
        areaScore T A cfg.title_multiplier (area.terms ++ [t]) := by
      rw [areaScore_eq_sum, areaScore_eq_sum]
      unfold areaScoreSum
      rw [List.map_append, List.sum_append]
      have h1 : (0 : ℚ) ≤ (if strIn (strLower t) T then cfg.title_multiplier else 0) := by
        positivity
      have h2 : (0 : ℚ) ≤ (if strIn (strLower t) A then (1 : ℚ) else 0) := by positivity
      simp only [List.map_cons, List.map_nil, List.sum_cons, List.sum_nil]
      linarith
    by_cases h : 0 < areaScore T A cfg.title_multiplier area.terms
    · rw [if_pos h, if_pos (lt_of_lt_of_le h hle)]
      exact mul_le_mul_of_nonneg_right hle hwarea
    · rw [if_neg h]
      by_cases h' : 0 < areaScore T A cfg.title_multiplier (area.terms ++ [t])
      · rw [if_pos h']
        exact mul_nonneg (le_of_lt h') hwarea
      · rw [if_neg h']
  exact add_le_add_left (add_le_add_right (hmid _ _) _) _

theorem score_monotone_nonneg_weights_witness :
    (score_paper
      { title := "x", authors := "", abstract := "", url := "u",
        published_date := ⟨2026, 1, 1⟩, source := "pubmed" }
      { areas := [("a", { name := "a", terms := [], weight := 1 })],
        lookback_days := 7, max_results := 200, title_multiplier := 2,
        pubmed_enabled := true, biorxiv_enabled := true, arxiv_enabled := true,
        arxiv_categories := [], high_impact_journals := [],
        high_impact_lookback_days := 90, other_lookback_options := [] }).score ≤
    (score_paper
      { title := "x", authors := "", abstract := "", url := "u",
        published_date := ⟨2026, 1, 1⟩, source := "pubmed" }
      { areas := [("a", { name := "a", terms := [] ++ ["x"], weight := 1 })],
        lookback_days := 7, max_results := 200, title_multiplier := 2,
        pubmed_enabled := true, biorxiv_enabled := true, arxiv_enabled := true,
        arxiv_categories := [], high_impact_journals := [],
        high_impact_lookback_days := 90, other_lookback_options := [] }).score :=
  score_monotone_nonneg_weights _ _ [] [] "a" { name := "a", terms := [], weight := 1 } "x"
    (by intro na hna; simp at hna; rw [hna]; norm_num)
    (by norm_num) rfl (by simp)

end PaperFeed
